import Mathlib

/-!
Shallow embedding of the AppSec threat-reporting pipeline: the attack-event
reporter with its bounded backlog and flush state machine, and the WAF
detection adapter (rule loading, subscription dedup, matcher invocation).
JavaScript objects become structures, `undefined`-able values become
`Option`, code that can raise becomes `Except JsErr`, and the module-level
mutable state becomes explicit state records threaded through the
operations.
-/

namespace AppSec

/-- A JavaScript runtime error raised by the modelled code (e.g. reading a
property of `undefined`). -/
inductive JsErr
  | typeError
deriving DecidableEq

namespace Reporter

/-- Allow-list of request header names forwarded in attack events
(`HEADERS_TO_SEND`). -/
def HEADERS_TO_SEND : List String :=
  ["client-ip", "forwarded-for", "forwarded", "referer", "true-client-ip",
   "user-agent", "via", "x-client-ip", "x-cluster-client-ip",
   "x-forwarded-for", "x-forwarded", "x-real-ip"]

/-- Backlog capacity bound (`MAX_EVENT_BACKLOG = 1e6`). -/
def MAX_EVENT_BACKLOG : Nat := 1000000

/-- JavaScript object property read `obj[key]`: `none` models `undefined`. -/
def jsGet (obj : List (String × String)) (key : String) : Option String :=
  (obj.find? (fun kv => kv.1 == key)).map (fun kv => kv.2)

/-- Template-literal interpolation of a possibly-`undefined` value:
`undefined` prints as the string "undefined". -/
def jsToString (o : Option String) : String := o.getD "undefined"

/-- The per-request execution context as consumed by
`resolveHTTPAddresses`: the value `context.resolve` returns for each HTTP
address, `none` when the address was never published. -/
structure ReqContext where
  url : Option String
  headers : Option (List (String × String))
  method : Option String
  remoteIp : Option String
  remotePort : Option Nat
deriving DecidableEq

/-- Characters before the first occurrence of `sep`. -/
def takeUntilChar (sep : Char) : List Char → List Char
  | [] => []
  | c :: cs => if c = sep then [] else c :: takeUntilChar sep cs

/-- Model of `s.split(sep)[0]` for a single-character separator: the part
of `s` before the first occurrence of `sep`. -/
def splitHead (s : String) (sep : Char) : String :=
  String.mk (takeUntilChar sep s.data)

/-- Prefix test on character lists. -/
def isPrefixL : List Char → List Char → Bool
  | [], _ => true
  | _ :: _, [] => false
  | p :: ps, c :: cs => p == c && isPrefixL ps cs

/-- Model of `String.startsWith`, by structural recursion on the character
lists. -/
def strStartsWith (s p : String) : Bool := isPrefixL p.data s.data

/-- Shallow model of WHATWG `new URL(path, base).href` for the inputs this
module produces: an absolute http(s) path stands alone, any other path is
resolved against the base origin. -/
def urlHref (path : String) (base : String) : String :=
  if strStartsWith path "http://" || strStartsWith path "https://" then path
  else if strStartsWith path "/" then base ++ path
  else base ++ "/" ++ path

/-- Result object of `resolveHTTPAddresses`. The `route`, response-status
and response-header fields are commented out in the source, so `route` is
always absent; `headers` is absent exactly when there was no context (the
function returned the empty object `\x7b\x7d`). -/
structure ResolvedHttp where
  method : Option String
  url : Option String
  route : Option String
  remote_ip : Option String
  remote_port : Option Nat
  headers : Option (List (String × List String))
deriving DecidableEq

/-- Model of `getHeadersToSend`: keep, in allow-list order, each
allow-listed header whose value is truthy (present and non-empty), as a
single-element array. -/
def getHeadersToSend (headers : Option (List (String × String))) :
    List (String × List String) :=
  match headers with
  | none => []
  | some hs =>
    HEADERS_TO_SEND.foldl
      (fun result headerName =>
        match jsGet hs headerName with
        | some v => if v ≠ "" then result ++ [(headerName, [v])] else result
        | none => result)
      []

/-- Model of `resolveHTTPAddresses`. With no context it returns the empty
object. With a context it builds `new URL(path, http://headers.host)` —
which raises a TypeError when the headers address is unresolved, since
`headers.host` reads a property of `undefined` — and strips the query
string with `url.href.split(sep)[0]` at the first `?`. -/
def resolveHTTPAddresses (context : Option ReqContext) :
    Except JsErr ResolvedHttp :=
  match context with
  | none => .ok ⟨none, none, none, none, none, none⟩
  | some ctx =>
    match ctx.headers with
    | none => .error .typeError
    | some hs =>
      let href := urlHref (jsToString ctx.url)
        ("http://" ++ jsToString (jsGet hs "host"))
      .ok { method := ctx.method
            url := some (splitHead href '?')
            route := none
            remote_ip := ctx.remoteIp
            remote_port := ctx.remotePort
            headers := some (getHeadersToSend (some hs)) }

/-- Static tracer configuration (`scope._config`): service name,
environment, version and the tag map, each possibly absent. -/
structure TracerConfig where
  service : Option String
  env : Option String
  version : Option String
  tags : Option (List (String × String))
deriving DecidableEq

/-- The identifiers of the active span, as returned by `context.toSpanId()`
and `context.toTraceId()`. -/
structure SpanInfo where
  spanId : String
  traceId : String
deriving DecidableEq

/-- The `global._ddtrace._tracer` handle: its scope configuration and the
currently active span, if any. -/
structure TracerGlobal where
  config : TracerConfig
  active : Option SpanInfo
deriving DecidableEq

/-- Result object of `getTracerData`. -/
structure TracerData where
  serviceName : Option String
  serviceEnv : Option String
  serviceVersion : Option String
  tags : List String
  spanId : Option String
  traceId : Option String
deriving DecidableEq

/-- Model of `getTracerData`. Reading `._tracer` off an absent
`global._ddtrace` raises a TypeError, as does `Object.entries` on an absent
`scope._config.tags`; an absent active span degrades to absent span/trace
ids. The `manual.keep` / `appsec.event` tagging side effect on the active
span does not alter any data this model observes. -/
def getTracerData (tracer : Option TracerGlobal) : Except JsErr TracerData :=
  match tracer with
  | none => .error .typeError
  | some t =>
    match t.config.tags with
    | none => .error .typeError
    | some ts =>
      .ok { serviceName := t.config.service
            serviceEnv := t.config.env
            serviceVersion := t.config.version
            tags := ts.map (fun kv => kv.1 ++ ":" ++ kv.2)
            spanId := t.active.map (fun sp => sp.spanId)
            traceId := t.active.map (fun sp => sp.traceId) }

/-- A UTC clock reading, the components `Date.prototype.toISOString`
formats. -/
structure JsDate where
  year : Nat
  month : Nat
  day : Nat
  hour : Nat
  minute : Nat
  second : Nat
  millis : Nat
deriving DecidableEq

/-- Left-pad a decimal number with zeros to the given width. -/
def pad (width : Nat) (n : Nat) : String :=
  let s := toString n
  String.mk (List.replicate (width - s.length) '0') ++ s

/-- Model of `Date.prototype.toJSON`: the ISO-8601 UTC serialization
`YYYY-MM-DDTHH:mm:ss.sssZ` produced by `toISOString`. -/
def dateToJSON (d : JsDate) : String :=
  pad 4 d.year ++ "-" ++ pad 2 d.month ++ "-" ++ pad 2 d.day ++ "T" ++
  pad 2 d.hour ++ ":" ++ pad 2 d.minute ++ ":" ++ pad 2 d.second ++ "." ++
  pad 3 d.millis ++ "Z"

/-- The `host` constant of the module (`context_version` 0.1.0, OS type,
hostname). -/
structure HostContext where
  context_version : String
  os_type : String
  hostname : String
deriving DecidableEq

/-- The `library` constant of the module (`context_version` 0.1.0, runtime
and library version data). -/
structure LibraryContext where
  context_version : String
  runtime_type : String
  runtime_version : String
  lib_version : String
deriving DecidableEq

/-- The `context.http.request` block of an attack event. -/
structure HttpRequest where
  method : Option String
  url : Option String
  resource : Option String
  remote_ip : Option String
  remote_port : Option Nat
  headers : Option (List (String × List String))
deriving DecidableEq

/-- The `context.http` block of an attack event. -/
structure HttpContext where
  context_version : String
  request : HttpRequest
deriving DecidableEq

/-- The `context.service` block of an attack event. -/
structure ServiceContext where
  context_version : String
  name : Option String
  environment : Option String
  version : Option String
deriving DecidableEq

/-- The `context.span` block of an attack event. -/
structure SpanContext where
  context_version : String
  id : Option String
deriving DecidableEq

/-- The `context.tags` block of an attack event. -/
structure TagsContext where
  context_version : String
  values : List String
deriving DecidableEq

/-- The `context.trace` block of an attack event. -/
structure TraceContext where
  context_version : String
  id : Option String
deriving DecidableEq

/-- The `context` block of an attack event. -/
structure EventContext where
  host : HostContext
  http : HttpContext
  library : LibraryContext
  service : ServiceContext
  span : SpanContext
  tags : TagsContext
  trace : TraceContext
deriving DecidableEq

/-- An attack event as built by `reportAttack`. `rule` and `rule_match` are
opaque passthrough payloads, modelled as strings; `event_id` is the uuid
drawn when the event was built. -/
structure Event where
  event_id : Nat
  event_type : String
  event_version : String
  detected_at : String
  rule : String
  rule_match : String
  context : EventContext
deriving DecidableEq

/-- The ambient process environment read by the reporter: the gateway
execution context, the global tracer handle, the host/library constants'
inputs, and the current clock reading. -/
structure Env where
  context : Option ReqContext
  tracer : Option TracerGlobal
  osType : String
  hostname : String
  runtimeVersion : String
  libVersion : String
  now : JsDate
deriving DecidableEq

/-- Build the event object literal of `reportAttack` from the resolved
ambient data and a fresh uuid. -/
def buildEvent (env : Env) (rule ruleMatches : String) (uuid : Nat)
    (resolvedHttp : ResolvedHttp) (tracerData : TracerData) : Event :=
  let host : HostContext := ⟨"0.1.0", env.osType, env.hostname⟩
  let library : LibraryContext :=
    ⟨"0.1.0", "nodejs", env.runtimeVersion, env.libVersion⟩
  { event_id := uuid
    event_type := "appsec"
    event_version := "1.0.0"
    detected_at := dateToJSON env.now
    rule := rule
    rule_match := ruleMatches
    context :=
      { host := host
        http :=
          { context_version := "1.0.0"
            request :=
              { method := resolvedHttp.method
                url := resolvedHttp.url
                resource := resolvedHttp.route
                remote_ip := resolvedHttp.remote_ip
                remote_port := resolvedHttp.remote_port
                headers := resolvedHttp.headers } }
        library := library
        service :=
          { context_version := "0.1.0"
            name := tracerData.serviceName
            environment := tracerData.serviceEnv
            version := tracerData.serviceVersion }
        span := { context_version := "0.1.0", id := tracerData.spanId }
        tags := { context_version := "0.1.0", values := tracerData.tags }
        trace := { context_version := "0.1.0", id := tracerData.traceId } } }

/-- A log line emitted by the module. -/
inductive LogMsg
  | warnBacklogFull
  | errorSendFailed
deriving DecidableEq

/-- The JSON payload of one POST to the collector: protocol version 1, a
fresh idempotency key, and the snapshotted events. -/
structure Batch where
  protocol_version : Nat
  idempotency_key : Nat
  events : List Event
deriving DecidableEq

/-- Module state of the reporter: the `events` Set (insertion-ordered; each
entry is a distinct freshly-built object), the flush `lock`, the uuid
source, the log, and the transmissions currently in flight. -/
structure RState where
  events : List Event
  lock : Bool
  nextUuid : Nat
  log : List LogMsg
  inFlight : List Batch
deriving DecidableEq

/-- The state at module load: empty backlog, lock clear, nothing in
flight. -/
def initState : RState := ⟨[], false, 0, [], []⟩

/-- Model of `reportAttack`. Guard first: when `events.size` strictly
exceeds `MAX_EVENT_BACKLOG` it returns `undefined` without touching
anything. Otherwise it resolves the ambient HTTP and tracer data (either
of which can raise), builds the event, adds it to the backlog and returns
it. -/
def reportAttack (env : Env) (rule ruleMatches : String) (blocked : Bool)
    (s : RState) : Except JsErr (Option Event × RState) :=
  if s.events.length > MAX_EVENT_BACKLOG then .ok (none, s)
  else
    match resolveHTTPAddresses env.context with
    | .error e => .error e
    | .ok resolvedHttp =>
      match getTracerData env.tracer with
      | .error e => .error e
      | .ok tracerData =>
        let event := buildEvent env rule ruleMatches s.nextUuid resolvedHttp
          tracerData
        .ok (some event,
          { s with
            events := s.events ++ [event]
            nextUuid := s.nextUuid + 1 })

/-- Model of `flush`. No-op when the lock is held or the backlog is empty;
otherwise warn if the backlog is at/over the bound, snapshot the whole
backlog into a batch (draining the Set before the POST is attempted), take
the lock and start the transmission. The transport-target fields of the
request options (path, host/socket taken from the tracer exporter url) are
external configuration that never touches the drained data and are not
recorded; starting the POST is modelled by appending the batch to
`inFlight`, whose completion is the separate `requestCallback` step. -/
def flush (s : RState) : RState :=
  if s.lock || s.events.isEmpty then s
  else
    let log' := if s.events.length ≥ MAX_EVENT_BACKLOG
      then s.log ++ [LogMsg.warnBacklogFull] else s.log
    let batch : Batch := ⟨1, s.nextUuid, s.events⟩
    { events := []
      lock := true
      nextUuid := s.nextUuid + 1
      log := log'
      inFlight := s.inFlight ++ [batch] }

/-- Model of the completion callback `flush` passes to `request`: clear the
lock, retire the outstanding transmission, and log the error when the
transmission failed (the batch is not re-enqueued). -/
def requestCallback (err : Bool) (s : RState) : RState :=
  { s with
    lock := false
    inFlight := s.inFlight.drop 1
    log := if err then s.log ++ [LogMsg.errorSendFailed] else s.log }

/-- One atomic transition of the reporter module: a non-raising
`reportAttack` call (a raising call leaves the state unchanged), a `flush`
call (timer tick or manual), or the completion callback of an outstanding
transmission. -/
inductive RStep : RState → RState → Prop
  | report (env : Env) (rule ruleMatches : String) (blocked : Bool)
      (ev : Option Event) (s s' : RState)
      (h : reportAttack env rule ruleMatches blocked s = .ok (ev, s')) :
      RStep s s'
  | flushStep (s : RState) : RStep s (flush s)
  | complete (err : Bool) (s : RState) (h : s.inFlight ≠ []) :
      RStep s (requestCallback err s)

/-- Reachability of a reporter state from the module-load state. -/
def Reach (s : RState) : Prop := Relation.ReflTransGen RStep initState s

/-- Invariant of reachable reporter states: a transmission is in flight
exactly when the lock is held (so never two at once); the backlog never
holds more than the bound plus one event; every stored event id is below
the uuid counter; and no event of an in-flight batch is still in the
backlog. -/
structure Inv (s : RState) : Prop where
  flight_lock : s.inFlight.length = if s.lock then 1 else 0
  backlog_bound : s.events.length ≤ MAX_EVENT_BACKLOG + 1
  fresh_events : ∀ e ∈ s.events, e.event_id < s.nextUuid
  fresh_batches : ∀ b ∈ s.inFlight, ∀ e ∈ b.events, e.event_id < s.nextUuid
  disjoint : ∀ b ∈ s.inFlight, ∀ e ∈ b.events, e ∉ s.events

/-- A concrete well-formed environment: no execution context, a tracer
with an empty tag map and no active span. -/
def envOk : Env :=
  { context := none
    tracer := some ⟨⟨none, none, none, some []⟩, none⟩
    osType := "Linux"
    hostname := "h"
    runtimeVersion := "v16.0.0"
    libVersion := "2.0.0"
    now := ⟨2021, 9, 1, 12, 0, 0, 0⟩ }

/-- A placeholder attack event used to populate concrete backlogs. -/
def dummyEvent : Event :=
  { event_id := 0
    event_type := "appsec"
    event_version := "1.0.0"
    detected_at := ""
    rule := ""
    rule_match := ""
    context :=
      ⟨⟨"0.1.0", "", ""⟩, ⟨"1.0.0", ⟨none, none, none, none, none, none⟩⟩,
       ⟨"0.1.0", "nodejs", "", ""⟩, ⟨"0.1.0", none, none, none⟩,
       ⟨"0.1.0", none⟩, ⟨"0.1.0", []⟩, ⟨"0.1.0", none⟩⟩ }

/-- A backlog holding exactly `MAX_EVENT_BACKLOG` events. -/
def stFull : RState :=
  ⟨List.replicate MAX_EVENT_BACKLOG dummyEvent, false, 1, [], []⟩

/-- A backlog holding one event more than `MAX_EVENT_BACKLOG`. -/
def stOver : RState :=
  ⟨List.replicate (MAX_EVENT_BACKLOG + 1) dummyEvent, false, 1, [], []⟩

/-- A backlog holding a single event, lock clear. -/
def stOne : RState := ⟨[dummyEvent], false, 5, [], []⟩

/-- The event built by the first `reportAttack` in the concrete trace
below (uuid 0, no ambient context). -/
def ev0 : Event :=
  buildEvent envOk "r" "m" 0 ⟨none, none, none, none, none, none⟩
    ⟨none, none, none, [], none, none⟩

/-- State after reporting one attack from `initState`. -/
def st1 : RState := ⟨[ev0], false, 1, [], []⟩

/-- State after flushing `st1`: backlog drained, lock held, one batch in
flight. -/
def st2 : RState := ⟨[], true, 2, [], [⟨1, 1, [ev0]⟩]⟩

/-- The batch in flight at `st2`. -/
def batch0 : Batch := ⟨1, 1, [ev0]⟩

/-- The event built by a second `reportAttack` fired at `st2`, during the
in-flight transmission (uuid 2). -/
def ev1 : Event :=
  buildEvent envOk "r" "m" 2 ⟨none, none, none, none, none, none⟩
    ⟨none, none, none, [], none, none⟩

/-- State after reporting a second attack at `st2`. -/
def st3 : RState := ⟨[ev1], true, 3, [], [⟨1, 1, [ev0]⟩]⟩

/-- The event `reportAttack` builds when called on `stFull` (uuid 1, no
ambient context). -/
def evF : Event :=
  buildEvent envOk "rule" "match" 1 ⟨none, none, none, none, none, none⟩
    ⟨none, none, none, [], none, none⟩

/-- The state `reportAttack` produces from `stFull`: the backlog grew past
the bound. -/
def stFullAfter : RState := ⟨stFull.events ++ [evF], false, 2, [], []⟩

/-- The ambient environment with no tracer global installed. -/
def envNoTracer : Env := { envOk with tracer := none }

/-- The request headers of the C6 scenario. -/
def scenarioHeaders : List (String × String) :=
  [("host", "x"), ("user-agent", "curl")]

/-- The execution context of the C6 scenario: method GET, an absolute url
carrying a query string, a host and a user-agent header. -/
def ctxScenario : ReqContext :=
  ⟨some "https://x/y?z=1", some scenarioHeaders, some "GET", none, none⟩

/-- The ambient environment of the C6 scenario. -/
def envScenario : Env := { envOk with context := some ctxScenario }

end Reporter

namespace WAF

/-- One input of a rule condition; `address` may carry a `:extra` suffix,
only the part before the first colon is the Address Registry key. -/
structure RuleInput where
  address : String
deriving DecidableEq

/-- One match condition of a rule (its `parameters.inputs`). -/
structure Condition where
  inputs : List RuleInput
deriving DecidableEq

/-- A detection rule: id, human name, tags and match conditions. -/
structure Rule where
  id : String
  name : String
  tags : List String
  conditions : List Condition
deriving DecidableEq

/-- The rule set handed to the constructor (the `rules.rules` array). -/
structure RuleSet where
  rules : List Rule
deriving DecidableEq

/-- A Gateway subscription registered by the constructor: the sorted,
deduplicated address array (every subscription shares the one `method`
closure as callback, so only the addresses vary). -/
structure Subscription where
  addresses : List String
deriving DecidableEq

/-- A warning logged by the adapter. -/
inductive WafLog
  | skipRule (id : String)
  | runError
deriving DecidableEq

/-- The string comparison JS `Array.prototype.sort()` uses by default:
lexicographic on the character sequences (code units; identical to code
points for the ASCII registry addresses). -/
def strle (a b : String) : Prop := a.data ≤ b.data

instance : DecidableRel strle := fun a b =>
  inferInstanceAs (Decidable (a.data ≤ b.data))

instance : IsTotal String strle := ⟨fun a b => le_total a.data b.data⟩

instance : IsTrans String strle := ⟨fun _ _ _ hab hbc => le_trans hab hbc⟩

instance : IsAntisymm String strle := ⟨fun a b h1 h2 => by
  cases a
  cases b
  simp only [strle] at h1 h2
  simp [le_antisymm h1 h2]⟩

/-- `Array.from(new Set(addresses))`: deduplicate keeping the first
occurrence of each element, in insertion order. -/
def dedupFirst (l : List String) : List String :=
  l.foldl (fun acc a => if a ∈ acc then acc else acc ++ [a]) []

/-- JS `Array.prototype.sort()` on a string array: the sorted permutation
(unique on deduplicated input, so the sorting algorithm is immaterial). -/
def sortStrings (l : List String) : List String := List.insertionSort strle l

/-- The address-set fingerprint of a registered subscription: its sorted
deduplicated address list joined with commas (the constructor's `hash`). -/
def hashOf (sub : Subscription) : String :=
  String.intercalate "," sub.addresses

/-- JS `Map.prototype.set`: overwrite an existing binding in place, else
append. -/
def mapSet (cache : List (String × Rule)) (k : String) (r : Rule) :
    List (String × Rule) :=
  if cache.any (fun kv => kv.1 == k) then
    cache.map (fun kv => if kv.1 == k then (k, r) else kv)
  else cache ++ [(k, r)]

/-- Per-condition loop of the constructor for one rule. `groups` is the
constructor's `subscriptionGroups` Set, `subs` the Gateway subscriptions
in registration order, `warns` the log. A condition with any address
prefix outside the valid set logs a warning and `break`s, dropping the
rule's remaining conditions; a condition whose fingerprint was already
seen `continue`s; otherwise the fingerprint is recorded and one
subscription is registered. -/
def processConditions (valid : List String) (rid : String) :
    List Condition → List String → List Subscription → List WafLog →
    List String × List Subscription × List WafLog
  | [], groups, subs, warns => (groups, subs, warns)
  | c :: rest, groups, subs, warns =>
    let addresses := c.inputs.map (fun i => Reporter.splitHead i.address ':')
    if ¬ addresses.all (fun a => valid.contains a) then
      (groups, subs, warns ++ [WafLog.skipRule rid])
    else
      let sorted := sortStrings (dedupFirst addresses)
      let hash := String.intercalate "," sorted
      if hash ∈ groups then
        processConditions valid rid rest groups subs warns
      else
        processConditions valid rid rest (groups ++ [hash])
          (subs ++ [⟨sorted⟩]) warns

/-- Accumulator of the constructor's rule loop: the fingerprint Set, the
registered subscriptions, the warnings, and the rule cache. -/
structure LoadState where
  groups : List String
  subs : List Subscription
  warns : List WafLog
  cache : List (String × Rule)
deriving DecidableEq

/-- One iteration of the constructor's rule loop: cache the rule by id,
then run the condition loop. -/
def loadRule (valid : List String) (acc : LoadState) (r : Rule) : LoadState :=
  let res := processConditions valid r.id r.conditions acc.groups acc.subs
    acc.warns
  ⟨res.1, res.2.1, res.2.2, mapSet acc.cache r.id r⟩

/-- The constructor's whole rule loop. -/
def loadRules (valid : List String) (rules : List Rule) : LoadState :=
  rules.foldl (loadRule valid) ⟨[], [], [], []⟩

/-- A constructed `WAFCallback` instance together with the Gateway state
it registered into: the engine handle `ddwaf`, the never-assigned
`libAppSec` property (`undefined`), the per-execution-context
matcher-state cache keyed by association key, the rule cache, the Gateway
subscriptions, and the warnings logged while loading. -/
structure WAFCallback where
  ddwaf : Unit
  libAppSec : Option Unit
  wafContextCache : List (Nat × Nat)
  nextCtx : Nat
  ruleCache : List (String × Rule)
  subscriptions : List Subscription
  logWarnings : List WafLog
deriving DecidableEq

/-- Model of the `WAFCallback` constructor (with `loadDDWAF` succeeding;
the engine instance is stored under `ddwaf` and nothing is ever assigned
to `libAppSec`). The `validAddressSet` derives from the addresses module,
which is outside the inspected source, so the valid address list is a
parameter. -/
def wafConstructor (valid : List String) (rs : RuleSet) : WAFCallback :=
  let ls := loadRules valid rs.rules
  { ddwaf := ()
    libAppSec := none
    wafContextCache := []
    nextCtx := 0
    ruleCache := ls.cache
    subscriptions := ls.subs
    logWarnings := ls.warns }

/-- One match point of the parsed `result.data` payload, with
`point.filter[0]` already projected into the match fields. -/
structure MatchPoint where
  rule : String
  operator : String
  operator_value : String
  binding_accessor : String
  key_path : List String
  resolved_value : String
  match_status : String
deriving DecidableEq

/-- The result object a matcher run returns: `action` (undefined or a
string; truthiness gates reporting) and the parsed `data` payload. -/
structure WafResult where
  action : Option String
  data : List MatchPoint
deriving DecidableEq

/-- The argument object of one `Reporter.reportAttack` call made by
`applyResult`. -/
structure ReportCall where
  eventType : String
  blocked : Bool
  ruleId : String
  ruleName : String
  ruleTags : List String
  matchOperator : String
  matchOperatorValue : String
  matchAddress : String
  matchKeyPath : List String
  matchValue : String
  matchHighlight : List String
deriving DecidableEq

/-- The reports `applyResult` emits for the match points: looking up an
unknown rule id in the rule cache yields `undefined`, so reading `.name`
raises — modelled with `Except`, since the caller runs this inside its
try/catch. -/
def reportsOf (cache : List (String × Rule)) :
    List MatchPoint → Except JsErr (List ReportCall)
  | [] => .ok []
  | p :: rest =>
    match (cache.find? (fun kv => kv.1 == p.rule)).map (fun kv => kv.2) with
    | none => .error .typeError
    | some r => do
      let tail ← reportsOf cache rest
      .ok ({ eventType := "appsec.threat.attack"
             blocked := false
             ruleId := p.rule
             ruleName := r.name
             ruleTags := r.tags
             matchOperator := p.operator
             matchOperatorValue := p.operator_value
             matchAddress := p.binding_accessor
             matchKeyPath := p.key_path
             matchValue := p.resolved_value
             matchHighlight := [p.match_status] } :: tail)

/-- Model of `applyResult`: nothing is reported unless `result.action` is
truthy; otherwise one report per match point. -/
def applyResult (cache : List (String × Rule)) (result : WafResult) :
    Except JsErr (List ReportCall) :=
  match result.action with
  | none => .ok []
  | some act => if act = "" then .ok [] else reportsOf cache result.data

/-- The store passed to the callback: `store.get('context')` returns the
association key, if any. -/
structure Store where
  contextKey : Option Nat
deriving DecidableEq

/-- Model of `action`. The matcher is the oracle `run`, mapping the chosen
waf context id to a result or a raised error; `createContext` draws a
fresh id from `nextCtx`. The `try` wrapping `wafContext.run` and
`applyResult` turns any raise into a logged warning with no reports; the
return type is total — no exception propagates to the publisher. -/
def action (self : WAFCallback) (store : Option Store)
    (run : Nat → Except Unit WafResult) : WAFCallback × List ReportCall :=
  let pick : Option Nat × WAFCallback :=
    match store with
    | none => (none, self)
    | some st =>
      match st.contextKey with
      | none => (none, self)
      | some key =>
        match (self.wafContextCache.find? (fun kv => kv.1 == key)).map
            (fun kv => kv.2) with
        | some c => (some c, self)
        | none =>
          (some self.nextCtx,
            { self with
              nextCtx := self.nextCtx + 1
              wafContextCache :=
                self.wafContextCache ++ [(key, self.nextCtx)] })
  let s1 := pick.2
  let wafContext : Nat × WAFCallback :=
    match pick.1 with
    | some c => (c, s1)
    | none => (s1.nextCtx, { s1 with nextCtx := s1.nextCtx + 1 })
  let s2 := wafContext.2
  match run wafContext.1 with
  | .error _ =>
    ({ s2 with logWarnings := s2.logWarnings ++ [WafLog.runError] }, [])
  | .ok result =>
    match applyResult s2.ruleCache result with
    | .error _ =>
      ({ s2 with logWarnings := s2.logWarnings ++ [WafLog.runError] }, [])
    | .ok reports => (s2, reports)

/-- Model of `clear`: `this.libAppSec.dispose()` raises a TypeError when
`libAppSec` is `undefined`; only after a successful dispose would the
matcher-state cache be reset and the Gateway subscriptions cleared (an
error return leaves the instance and Gateway untouched). -/
def clear (self : WAFCallback) : Except JsErr WAFCallback :=
  match self.libAppSec with
  | none => .error .typeError
  | some _ => .ok { self with wafContextCache := [], subscriptions := [] }

/-- Invariant of the condition loop: registered fingerprints are pairwise
distinct, each appears in the fingerprint Set, and every registered
subscription carries a sorted duplicate-free address list. -/
def SubsInv (groups : List String) (subs : List Subscription) : Prop :=
  (subs.map hashOf).Nodup ∧
  (∀ h ∈ subs.map hashOf, h ∈ groups) ∧
  (∀ sub ∈ subs, List.Sorted strle sub.addresses ∧ sub.addresses.Nodup)

/-- The loop invariant restated on the rule-loop accumulator. -/
def LoadInv (ls : LoadState) : Prop := SubsInv ls.groups ls.subs

/-- A rule whose first condition references a valid address and whose
second references an address outside the registry. -/
def ruleMixed : Rule :=
  ⟨"r1", "rule one", [], [⟨[⟨"addr.a"⟩]⟩, ⟨[⟨"bad.addr"⟩]⟩]⟩

/-- A rule whose first (and only) condition references an unknown
address. -/
def ruleBadFirst : Rule := ⟨"r2", "rule two", [], [⟨[⟨"bad.addr"⟩]⟩]⟩

/-- A rule set with two conditions that carry the same address set in
different order and multiplicity (and a `:x` suffix on one input). -/
def rsW : RuleSet :=
  ⟨[⟨"r1", "rule one", [],
    [⟨[⟨"b"⟩, ⟨"a"⟩]⟩, ⟨[⟨"a"⟩, ⟨"a:x"⟩, ⟨"b"⟩]⟩]⟩]⟩

/-- C10: the constructor stores the engine under `ddwaf` and never assigns
`libAppSec`, so `clear()` — whose first statement is
`this.libAppSec.dispose()` — raises a TypeError on every constructed
instance before the matcher-state cache or the Gateway subscriptions are
touched. -/
theorem C10_clear_raises (valid : List String) (rs : RuleSet) :
    (wafConstructor valid rs).libAppSec = none ∧
    clear (wafConstructor valid rs) = .error JsErr.typeError :=
  ⟨rfl, rfl⟩

end WAF

namespace Reporter

/-- Case analysis of a non-raising `reportAttack` call: either the guard
refused (strictly over the bound, nothing returned, state untouched) or an
event carrying the fresh uuid was appended to the backlog. -/
theorem reportAttack_spec (env : Env) (rule ruleMatches : String)
    (blocked : Bool) (ev : Option Event) (s s' : RState)
    (h : reportAttack env rule ruleMatches blocked s = .ok (ev, s')) :
    (ev = none ∧ s' = s ∧ MAX_EVENT_BACKLOG < s.events.length) ∨
    (∃ e, ev = some e ∧ e.event_id = s.nextUuid ∧
      s.events.length ≤ MAX_EVENT_BACKLOG ∧
      s' = { s with events := s.events ++ [e], nextUuid := s.nextUuid + 1 }) := by
  unfold reportAttack at h
  split at h
  next hgt =>
    injection h with h'
    injection h' with h1 h2
    exact Or.inl ⟨h1.symm, h2.symm, hgt⟩
  next hle =>
    split at h
    next heq => exact absurd h (by simp)
    next resolvedHttp heq =>
      split at h
      next heq2 => exact absurd h (by simp)
      next tracerData heq2 =>
        injection h with h'
        injection h' with h1 h2
        exact Or.inr ⟨buildEvent env rule ruleMatches s.nextUuid resolvedHttp
          tracerData, h1.symm, rfl, by omega, h2.symm⟩

theorem inv_init : Inv initState := by
  refine ⟨rfl, by simp [initState], ?_, ?_, ?_⟩ <;> simp [initState]

theorem inv_step {s s' : RState} (hinv : Inv s) (hstep : RStep s s') :
    Inv s' := by
  obtain ⟨hfl, hbb, hfe, hfb, hdj⟩ := hinv
  cases hstep with
  | report env rule ruleMatches blocked ev s s' h =>
    rcases reportAttack_spec env rule ruleMatches blocked ev s s' h with
      ⟨-, rfl, -⟩ | ⟨e, -, hid, hlen, rfl⟩
    · exact ⟨hfl, hbb, hfe, hfb, hdj⟩
    · refine ⟨hfl, by simp; omega, ?_, ?_, ?_⟩
      · intro e' he'
        simp at he'
        rcases he' with he' | rfl
        · exact Nat.lt_succ_of_lt (hfe e' he')
        · simp [hid]
      · intro b hb e' he'
        exact Nat.lt_succ_of_lt (hfb b hb e' he')
      · intro b hb e' he'
        simp
        refine ⟨hdj b hb e' he', ?_⟩
        intro hcontra
        have := hfb b hb e' he'
        rw [hcontra, hid] at this
        omega
  | flushStep s =>
    unfold flush
    split
    next => exact ⟨hfl, hbb, hfe, hfb, hdj⟩
    next hcond =>
      simp at hcond
      obtain ⟨hlock, hne⟩ := hcond
      refine ⟨?_, by simp, by simp, ?_, by simp⟩
      · simp [hlock] at hfl
        simp [hfl]
      · intro b hb e' he'
        simp [hlock] at hfl
        simp [hfl] at hb
        subst hb
        simp at he'
        exact Nat.lt_succ_of_lt (hfe e' he')
  | complete err s h =>
    have hlock : s.lock = true := by
      by_contra hc
      simp [hc] at hfl
      exact h hfl
    refine ⟨?_, hbb, hfe, ?_, ?_⟩
    · simp [requestCallback, hlock] at hfl ⊢
      omega
    · intro b hb e' he'
      simp [requestCallback] at hb
      exact hfb b (List.mem_of_mem_tail hb) e' he'
    · intro b hb e' he'
      simp [requestCallback] at hb ⊢
      exact hdj b (List.mem_of_mem_tail hb) e' he'

/-- Every reachable reporter state satisfies the invariant. -/
theorem inv_reach {s : RState} (h : Reach s) : Inv s := by
  induction h with
  | refl => exact inv_init
  | tail _ hstep ih => exact inv_step ih hstep

theorem report_init : reportAttack envOk "r" "m" false initState =
    .ok (some ev0, st1) := by rfl

theorem flush_st1 : flush st1 = st2 := by rfl

theorem report_st2 : reportAttack envOk "r" "m" false st2 =
    .ok (some ev1, st3) := by rfl

/-- The concrete trace `initState → st1 → st2` is reachable. -/
theorem reach_st2 : Reach st2 := by
  have h1 : RStep initState st1 :=
    RStep.report envOk "r" "m" false (some ev0) initState st1 report_init
  have h2 : RStep st1 st2 := by
    have h := RStep.flushStep st1
    rwa [flush_st1] at h
  exact Relation.ReflTransGen.tail
    (Relation.ReflTransGen.tail Relation.ReflTransGen.refl h1) h2

/-- Evaluation of a `reportAttack` call that is not refused and whose
ambient resolution does not raise. -/
theorem reportAttack_ok (env : Env) (rule ruleMatches : String)
    (blocked : Bool) (s : RState)
    (hlen : s.events.length ≤ MAX_EVENT_BACKLOG)
    (http : ResolvedHttp) (hhttp : resolveHTTPAddresses env.context = .ok http)
    (td : TracerData) (htd : getTracerData env.tracer = .ok td) :
    reportAttack env rule ruleMatches blocked s =
      .ok (some (buildEvent env rule ruleMatches s.nextUuid http td),
        { s with
          events := s.events ++
            [buildEvent env rule ruleMatches s.nextUuid http td]
          nextUuid := s.nextUuid + 1 }) := by
  unfold reportAttack
  rw [if_neg (by omega), hhttp, htd]

/-- C1 counterexample: with the backlog at exactly the bound (1,000,000
entries, i.e. "at the bound"), `reportAttack` does not return `undefined`
— it still builds an event and grows the backlog to 1,000,001, because the
source guard is the strict `events.size > MAX_EVENT_BACKLOG`. -/
theorem C1_bound_counterexample :
    stFull.events.length = MAX_EVENT_BACKLOG ∧
    reportAttack envOk "rule" "match" false stFull =
      .ok (some evF, stFullAfter) ∧
    stFullAfter.events.length = MAX_EVENT_BACKLOG + 1 := by
  have hlen : stFull.events.length = MAX_EVENT_BACKLOG :=
    List.length_replicate _ _
  refine ⟨hlen, ?_, ?_⟩
  · exact reportAttack_ok envOk "rule" "match" false stFull (le_of_eq hlen)
      ⟨none, none, none, none, none, none⟩ rfl
      ⟨none, none, none, [], none, none⟩ rfl
  · show (stFull.events ++ [evF]).length = MAX_EVENT_BACKLOG + 1
    rw [List.length_append, List.length_singleton, hlen]

/-- C1 (amended): `reportAttack` refuses new entries only when the backlog
size strictly exceeds the bound — it then returns `undefined` immediately,
adds no event and leaves the state unchanged — and consequently the
backlog size of every reachable state is at most the bound plus one
(1,000,001). -/
theorem C1_backlog_bound :
    (∀ (env : Env) (rule ruleMatches : String) (blocked : Bool) (s : RState),
      s.events.length > MAX_EVENT_BACKLOG →
      reportAttack env rule ruleMatches blocked s = .ok (none, s)) ∧
    (∀ s : RState, Reach s → s.events.length ≤ MAX_EVENT_BACKLOG + 1) := by
  constructor
  · intro env rule ruleMatches blocked s h
    simp [reportAttack, h]
  · intro s h
    exact (inv_reach h).backlog_bound

/-- C1 witness: the amended theorem applied to a backlog strictly over the
bound and to the reachable initial state. -/
theorem C1_backlog_bound_witness :
    reportAttack envOk "r" "m" false stOver = .ok (none, stOver) ∧
    initState.events.length ≤ MAX_EVENT_BACKLOG + 1 :=
  ⟨C1_backlog_bound.1 envOk "r" "m" false stOver
      (by have h : stOver.events.length = MAX_EVENT_BACKLOG + 1 :=
            List.length_replicate _ _
          omega),
    C1_backlog_bound.2 initState Relation.ReflTransGen.refl⟩

/-- C5 counterexample: with an empty backlog (far below the bound) and no
tracer global installed, `reportAttack` raises a TypeError instead of
returning an event — `getTracerData` reads `._tracer` off the absent
`global._ddtrace`. -/
theorem C5_no_tracer_counterexample :
    initState.events.length < MAX_EVENT_BACKLOG ∧
    reportAttack envNoTracer "r" "m" false initState =
      .error JsErr.typeError := by
  constructor
  · simp [initState, MAX_EVENT_BACKLOG]
  · rfl

/-- C5 (amended): for every invocation of `reportAttack` at or below the
backlog bound, if the tracer global is present with a tags configuration
and — when an execution context is present — the headers address is
resolved, then the report never fails: all other absent ambient data (no
execution context at all, unresolved method/url/remote-address values,
no active span, absent service fields) degrades to empty or absent fields
and `reportAttack` returns an event. Absence of the tracer global itself,
of its tags configuration, or of the headers address within a present
context instead raises a TypeError. -/
theorem C5_graceful_degradation :
    ∀ (env : Env) (rule ruleMatches : String) (blocked : Bool) (s : RState),
      s.events.length ≤ MAX_EVENT_BACKLOG →
      (env.context = none ∨
        ∃ ctx hs, env.context = some ctx ∧ ctx.headers = some hs) →
      (∃ t ts, env.tracer = some t ∧ t.config.tags = some ts) →
      ∃ e s', reportAttack env rule ruleMatches blocked s =
        .ok (some e, s') := by
  intro env rule ruleMatches blocked s hlen hctx htr
  obtain ⟨t, ts, htr1, htr2⟩ := htr
  have htd : ∃ td, getTracerData env.tracer = .ok td := by
    rw [htr1]
    simp only [getTracerData, htr2]
    exact ⟨_, rfl⟩
  have hhttp : ∃ r, resolveHTTPAddresses env.context = .ok r := by
    rcases hctx with h | ⟨ctx, hs, h1, h2⟩
    · rw [h]
      exact ⟨_, rfl⟩
    · rw [h1]
      simp only [resolveHTTPAddresses, h2]
      exact ⟨_, rfl⟩
  obtain ⟨td, htd⟩ := htd
  obtain ⟨r, hhttp⟩ := hhttp
  exact ⟨_, _,
    reportAttack_ok env rule ruleMatches blocked s hlen r hhttp td htd⟩

/-- C5 witness: the amended theorem applied with no execution context and
a minimal tracer configuration on the empty initial backlog. -/
theorem C5_graceful_degradation_witness :
    ∃ e s', reportAttack envOk "r" "m" false initState = .ok (some e, s') :=
  C5_graceful_degradation envOk "r" "m" false initState
    (by simp [initState, MAX_EVENT_BACKLOG]) (Or.inl rfl) ⟨_, _, rfl, rfl⟩

/-- Every entry `getHeadersToSend` emits has an allow-listed name and a
single-element value array. -/
theorem getHeadersToSend_mem (hs : List (String × String)) :
    ∀ p ∈ getHeadersToSend (some hs),
      p.1 ∈ HEADERS_TO_SEND ∧ ∃ v, p.2 = [v] := by
  unfold getHeadersToSend
  suffices h : ∀ (l : List String) (acc : List (String × List String)),
      (∀ a ∈ l, a ∈ HEADERS_TO_SEND) →
      (∀ p ∈ acc, p.1 ∈ HEADERS_TO_SEND ∧ ∃ v, p.2 = [v]) →
      ∀ p ∈ l.foldl (fun result headerName =>
        match jsGet hs headerName with
        | some v => if v ≠ "" then result ++ [(headerName, [v])] else result
        | none => result) acc,
        p.1 ∈ HEADERS_TO_SEND ∧ ∃ v, p.2 = [v] by
    intro p hp
    exact h HEADERS_TO_SEND [] (fun a ha => ha) (by simp) p hp
  intro l
  induction l with
  | nil =>
    intro acc hl hacc p hp
    exact hacc p hp
  | cons a l ih =>
    intro acc hl hacc p hp
    simp only [List.foldl_cons] at hp
    refine ih _ (fun x hx => hl x (List.mem_cons_of_mem a hx)) ?_ p hp
    intro q hq
    cases hjs : jsGet hs a with
    | none =>
      simp only [hjs] at hq
      exact hacc q hq
    | some v =>
      simp only [hjs] at hq
      split at hq
      next hv =>
        rcases List.mem_append.mp hq with hmem | hmem
        · exact hacc q hmem
        · simp at hmem
          subst hmem
          exact ⟨hl a (List.mem_cons_self a l), v, rfl⟩
      next hv =>
        exact hacc q hq

/-- C6: with the ambient request data resolved (context with headers, an
absolute published url, a tracer with a tags config), `reportAttack`
builds an event of exactly the documented shape: `event_type` "appsec",
`event_version` "1.0.0", a fresh `event_id` (the uuid counter, which is
bumped), `detected_at` the ISO-8601 serialization of the current time,
rule and match passed through, every context sub-object carrying its
`context_version`, `http.request.method` the published method unchanged,
`http.request.url` the published url with its query string stripped, and
headers restricted to the allow-listed names with single-element array
values. -/
theorem C6_event_shape :
    ∀ (env : Env) (rule ruleMatches : String) (blocked : Bool) (s : RState)
      (ctx : ReqContext) (hs : List (String × String)) (u : String),
      s.events.length ≤ MAX_EVENT_BACKLOG →
      env.context = some ctx → ctx.headers = some hs → ctx.url = some u →
      (strStartsWith u "http://" || strStartsWith u "https://") = true →
      (∃ t ts, env.tracer = some t ∧ t.config.tags = some ts) →
      ∃ e s', reportAttack env rule ruleMatches blocked s = .ok (some e, s') ∧
        e.event_type = "appsec" ∧
        e.event_version = "1.0.0" ∧
        e.event_id = s.nextUuid ∧ s'.nextUuid = s.nextUuid + 1 ∧
        e.detected_at = dateToJSON env.now ∧
        e.rule = rule ∧ e.rule_match = ruleMatches ∧
        e.context.host.context_version = "0.1.0" ∧
        e.context.http.context_version = "1.0.0" ∧
        e.context.library.context_version = "0.1.0" ∧
        e.context.service.context_version = "0.1.0" ∧
        e.context.span.context_version = "0.1.0" ∧
        e.context.tags.context_version = "0.1.0" ∧
        e.context.trace.context_version = "0.1.0" ∧
        e.context.http.request.method = ctx.method ∧
        e.context.http.request.url = some (splitHead u '?') ∧
        e.context.http.request.headers = some (getHeadersToSend (some hs)) ∧
        (∀ p ∈ getHeadersToSend (some hs),
          p.1 ∈ HEADERS_TO_SEND ∧ ∃ v, p.2 = [v]) := by
  intro env rule ruleMatches blocked s ctx hs u hlen hctx hhs hurl habs htr
  obtain ⟨t, ts, htr1, htr2⟩ := htr
  have htd : getTracerData env.tracer = .ok
      { serviceName := t.config.service
        serviceEnv := t.config.env
        serviceVersion := t.config.version
        tags := ts.map (fun kv => kv.1 ++ ":" ++ kv.2)
        spanId := t.active.map (fun sp => sp.spanId)
        traceId := t.active.map (fun sp => sp.traceId) } := by
    rw [htr1]
    simp only [getTracerData, htr2]
  have hhttp : resolveHTTPAddresses env.context = .ok
      { method := ctx.method
        url := some (splitHead u '?')
        route := none
        remote_ip := ctx.remoteIp
        remote_port := ctx.remotePort
        headers := some (getHeadersToSend (some hs)) } := by
    rw [hctx]
    simp only [resolveHTTPAddresses, hhs, jsToString, hurl, Option.getD_some,
      urlHref, habs, if_true]
  refine ⟨_, _, reportAttack_ok env rule ruleMatches blocked s hlen _ hhttp _
    htd, ?_⟩
  refine ⟨rfl, rfl, rfl, rfl, rfl, rfl, rfl, rfl, rfl, rfl, rfl, rfl, rfl,
    rfl, rfl, rfl, rfl, getHeadersToSend_mem hs⟩

/-- C6 witness: the theorem applied to the documented scenario — publish
method GET and url "https://x/y?z=1"; the built event carries url
"https://x/y" (query stripped), method GET unchanged, and only the
allow-listed user-agent header as a single-element array. -/
theorem C6_event_shape_witness :
    (∃ e s', reportAttack envScenario "r" "m" false initState =
        .ok (some e, s') ∧
      e.event_type = "appsec" ∧
      e.event_version = "1.0.0" ∧
      e.event_id = initState.nextUuid ∧
      s'.nextUuid = initState.nextUuid + 1 ∧
      e.detected_at = dateToJSON envScenario.now ∧
      e.rule = "r" ∧ e.rule_match = "m" ∧
      e.context.host.context_version = "0.1.0" ∧
      e.context.http.context_version = "1.0.0" ∧
      e.context.library.context_version = "0.1.0" ∧
      e.context.service.context_version = "0.1.0" ∧
      e.context.span.context_version = "0.1.0" ∧
      e.context.tags.context_version = "0.1.0" ∧
      e.context.trace.context_version = "0.1.0" ∧
      e.context.http.request.method = ctxScenario.method ∧
      e.context.http.request.url = some (splitHead "https://x/y?z=1" '?') ∧
      e.context.http.request.headers =
        some (getHeadersToSend (some scenarioHeaders)) ∧
      (∀ p ∈ getHeadersToSend (some scenarioHeaders),
        p.1 ∈ HEADERS_TO_SEND ∧ ∃ v, p.2 = [v])) ∧
    splitHead "https://x/y?z=1" '?' = "https://x/y" ∧
    ctxScenario.method = some "GET" ∧
    getHeadersToSend (some scenarioHeaders) = [("user-agent", ["curl"])] :=
  ⟨C6_event_shape envScenario "r" "m" false initState ctxScenario
      scenarioHeaders "https://x/y?z=1" (Nat.zero_le _) rfl rfl rfl
      (by decide) ⟨_, _, rfl, rfl⟩,
    by decide, rfl, by decide⟩

/-- C2: a `flush` call made while the lock is held or while the backlog is
empty is a no-op; when it proceeds it takes the lock and starts exactly
one new transmission; the completion callback clears the lock whether the
transmission succeeded or failed; and every reachable state has a
transmission in flight exactly when the lock is held — so at most one
flush transmission is ever in flight. -/
theorem C2_single_flight :
    (∀ s : RState, s.lock = true ∨ s.events = [] → flush s = s) ∧
    (∀ s : RState, s.lock = false → s.events ≠ [] →
      (flush s).lock = true ∧
      (flush s).inFlight = s.inFlight ++ [⟨1, s.nextUuid, s.events⟩]) ∧
    (∀ (err : Bool) (s : RState), (requestCallback err s).lock = false) ∧
    (∀ s : RState, Reach s → s.inFlight.length = if s.lock then 1 else 0) := by
  refine ⟨?_, ?_, ?_, ?_⟩
  · intro s h
    rcases h with h | h <;> simp [flush, h]
  · intro s h1 h2
    simp [flush, h1, List.isEmpty_iff, h2]
  · intro err s
    simp [requestCallback]
  · intro s h
    exact (inv_reach h).flight_lock

/-- C2 witness: the theorem applied at concrete states — an empty-backlog
no-op, a proceeding flush, a failing completion, and the reachable initial
state. -/
theorem C2_single_flight_witness :
    flush initState = initState ∧
    ((flush stOne).lock = true ∧
      (flush stOne).inFlight = [⟨1, 5, [dummyEvent]⟩]) ∧
    (requestCallback true st2).lock = false ∧
    initState.inFlight.length = if initState.lock then 1 else 0 := by
  refine ⟨C2_single_flight.1 initState (Or.inr rfl), ?_,
    C2_single_flight.2.2.1 true st2,
    C2_single_flight.2.2.2 initState Relation.ReflTransGen.refl⟩
  have h := C2_single_flight.2.1 stOne rfl (by simp [stOne])
  simpa [stOne] using h

/-- C3: a proceeding flush snapshots exactly the backlog contents at that
instant into the transmitted batch and clears the backlog; and any event
successfully reported while a batch is in flight is absent from that batch
and present in the backlog afterwards (the batch itself unchanged), so it
belongs to a later flush cycle. -/
theorem C3_flush_snapshot :
    (∀ s : RState, s.lock = false → s.events ≠ [] →
      (flush s).inFlight = s.inFlight ++ [⟨1, s.nextUuid, s.events⟩] ∧
      (flush s).events = []) ∧
    (∀ (s : RState) (env : Env) (rule ruleMatches : String) (blocked : Bool)
      (e : Event) (s' : RState) (b : Batch), Reach s → b ∈ s.inFlight →
      reportAttack env rule ruleMatches blocked s = .ok (some e, s') →
      e ∉ b.events ∧ e ∈ s'.events ∧ b ∈ s'.inFlight) := by
  constructor
  · intro s h1 h2
    simp [flush, h1, List.isEmpty_iff, h2]
  · intro s env rule ruleMatches blocked e s' b hreach hb h
    rcases reportAttack_spec env rule ruleMatches blocked (some e) s s' h with
      ⟨hcon, -, -⟩ | ⟨e', he', hid, -, rfl⟩
    · exact absurd hcon (by simp)
    · injection he' with hee
      subst hee
      have hfresh := (inv_reach hreach).fresh_batches b hb
      refine ⟨fun hmem => ?_, by simp, hb⟩
      have := hfresh e hmem
      omega

/-- C3 witness: the theorem applied to the concrete state `st1` (one
pending event) and to the reachable in-flight state `st2`, where a second
report lands in the backlog but not in the in-flight batch. -/
theorem C3_flush_snapshot_witness :
    ((flush st1).inFlight = st1.inFlight ++ [⟨1, st1.nextUuid, st1.events⟩] ∧
      (flush st1).events = []) ∧
    (ev1 ∉ batch0.events ∧ ev1 ∈ st3.events ∧ batch0 ∈ st3.inFlight) :=
  ⟨C3_flush_snapshot.1 st1 rfl (by simp [st1]),
    C3_flush_snapshot.2 st2 envOk "r" "m" false ev1 st3 batch0 reach_st2
      (by simp [st2, batch0]) report_st2⟩

/-- C4: delivery is at most once — a proceeding flush leaves the backlog
empty (the drained events are gone before the transmission is attempted);
the completion callback never re-enqueues anything (the backlog is exactly
what was reported meanwhile) and logs an error on failure; and after a
failed completion no event of the in-flight batch is in the backlog. -/
theorem C4_at_most_once :
    (∀ s : RState, s.lock = false → s.events ≠ [] → (flush s).events = []) ∧
    (∀ (err : Bool) (s : RState),
      (requestCallback err s).events = s.events ∧
      (requestCallback true s).log = s.log ++ [LogMsg.errorSendFailed]) ∧
    (∀ (s : RState) (b : Batch), Reach s → b ∈ s.inFlight →
      ∀ e ∈ b.events, e ∉ (requestCallback true s).events) := by
  refine ⟨?_, ?_, ?_⟩
  · intro s h1 h2
    simp [flush, h1, List.isEmpty_iff, h2]
  · intro err s
    constructor <;> simp [requestCallback]
  · intro s b hreach hb e he
    simp only [requestCallback]
    exact (inv_reach hreach).disjoint b hb e he

/-- C4 witness: the theorem applied to the concrete trace — flushing `st1`
drains it, the failing completion at `st2` re-enqueues nothing, logs the
error, and leaves the batched event `ev0` out of the backlog. -/
theorem C4_at_most_once_witness :
    (flush st1).events = [] ∧
    ((requestCallback true st2).events = st2.events ∧
      (requestCallback true st2).log = st2.log ++ [LogMsg.errorSendFailed]) ∧
    ev0 ∉ (requestCallback true st2).events :=
  ⟨C4_at_most_once.1 st1 rfl (by simp [st1]),
    C4_at_most_once.2.1 true st2,
    C4_at_most_once.2.2 st2 batch0 reach_st2 (by simp [st2, batch0]) ev0
      (by simp [batch0])⟩

end Reporter

namespace WAF

/-- `dedupFirst` produces a duplicate-free list. -/
theorem dedupFirst_nodup (l : List String) : (dedupFirst l).Nodup := by
  suffices h : ∀ (l acc : List String), acc.Nodup →
      (l.foldl (fun acc a => if a ∈ acc then acc else acc ++ [a]) acc).Nodup by
    exact h l [] List.nodup_nil
  intro l
  induction l with
  | nil =>
    intro acc h
    exact h
  | cons a l ih =>
    intro acc h
    simp only [List.foldl_cons]
    by_cases hmem : a ∈ acc
    · rw [if_pos hmem]
      exact ih acc h
    · rw [if_neg hmem]
      refine ih _ ?_
      simp [List.nodup_append, h, hmem]

/-- Sorting preserves duplicate-freeness. -/
theorem sortStrings_nodup {l : List String} (h : l.Nodup) :
    (sortStrings l).Nodup :=
  (List.perm_insertionSort strle l).nodup_iff.mpr h

/-- The sort output is sorted. -/
theorem sortStrings_sorted (l : List String) :
    List.Sorted strle (sortStrings l) :=
  List.sorted_insertionSort strle l

theorem processConditions_inv (valid : List String) (rid : String)
    (cs : List Condition) :
    ∀ groups subs warns, SubsInv groups subs →
      SubsInv (processConditions valid rid cs groups subs warns).1
        (processConditions valid rid cs groups subs warns).2.1 := by
  induction cs with
  | nil =>
    intro g s w h
    exact h
  | cons c rest ih =>
    intro g s w h
    simp only [processConditions]
    split
    next => exact h
    next hvalid =>
      split
      next => exact ih g s w h
      next hnotmem =>
        refine ih _ _ _ ?_
        obtain ⟨h1, h2, h3⟩ := h
        have hfp : String.intercalate ","
            (sortStrings (dedupFirst (c.inputs.map
              (fun i => Reporter.splitHead i.address ':')))) ∉
            s.map hashOf := fun hin => hnotmem (h2 _ hin)
        refine ⟨?_, ?_, ?_⟩
        · simpa [hashOf, List.nodup_append, h1] using hfp
        · intro x hx
          simp only [List.map_append, List.mem_append] at hx
          rcases hx with hx | hx
          · exact List.mem_append_left _ (h2 x hx)
          · simp only [List.map_cons, List.map_nil, List.mem_singleton] at hx
            subst hx
            exact List.mem_append_right _ (by simp [hashOf])
        · intro sub hsub
          rcases List.mem_append.mp hsub with hsub | hsub
          · exact h3 sub hsub
          · simp only [List.mem_singleton] at hsub
            subst hsub
            exact ⟨sortStrings_sorted _, sortStrings_nodup (dedupFirst_nodup _)⟩

theorem loadRule_inv (valid : List String) (acc : LoadState) (r : Rule)
    (h : LoadInv acc) : LoadInv (loadRule valid acc r) :=
  processConditions_inv valid r.id r.conditions acc.groups acc.subs acc.warns h

theorem loadRules_inv (valid : List String) (rules : List Rule) :
    LoadInv (loadRules valid rules) := by
  unfold loadRules
  suffices h : ∀ (rules : List Rule) (acc : LoadState), LoadInv acc →
      LoadInv (rules.foldl (loadRule valid) acc) by
    exact h rules ⟨[], [], [], []⟩ ⟨List.nodup_nil, by simp, by simp⟩
  intro rules
  induction rules with
  | nil =>
    intro acc h
    exact h
  | cons r rest ih =>
    intro acc h
    exact ih _ (loadRule_inv valid acc r h)

/-- C7 counterexample: loading `ruleMixed` (second condition invalid) does
not drop the rule entirely — its first condition has already registered a
subscription before the `break`, so the load produces one subscription,
not zero, besides the logged warning. -/
theorem C7_partial_rule_counterexample :
    (wafConstructor ["addr.a"] ⟨[ruleMixed]⟩).subscriptions =
      [⟨["addr.a"]⟩] ∧
    WafLog.skipRule "r1" ∈
      (wafConstructor ["addr.a"] ⟨[ruleMixed]⟩).logWarnings := by
  decide

/-- C7 (amended): rule conditions are validated in order and the rule is
dropped only from its first invalid condition onward — that condition logs
one warning, registers nothing, and the rule's remaining conditions are
skipped; hence a rule whose FIRST condition references an unknown address
produces zero subscriptions, while subscriptions from conditions before
the first invalid one remain registered; co-loaded rules are processed
normally and the load never fails. -/
theorem C7_invalid_condition_breaks :
    (∀ (valid : List String) (rid : String) (c : Condition)
      (rest : List Condition) (groups : List String)
      (subs : List Subscription) (warns : List WafLog),
      (c.inputs.map (fun i => Reporter.splitHead i.address ':')).all
        (fun a => valid.contains a) = false →
      processConditions valid rid (c :: rest) groups subs warns =
        (groups, subs, warns ++ [WafLog.skipRule rid])) ∧
    (∀ (valid : List String) (acc : LoadState) (r : Rule)
      (c : Condition) (rest : List Condition),
      r.conditions = c :: rest →
      (c.inputs.map (fun i => Reporter.splitHead i.address ':')).all
        (fun a => valid.contains a) = false →
      (loadRule valid acc r).subs = acc.subs ∧
      (loadRule valid acc r).groups = acc.groups ∧
      (loadRule valid acc r).warns = acc.warns ++ [WafLog.skipRule r.id]) ∧
    (∀ (valid : List String) (rules more : List Rule),
      loadRules valid (rules ++ more) =
        more.foldl (loadRule valid) (loadRules valid rules)) := by
  have hbreak : ∀ (valid : List String) (rid : String) (c : Condition)
      (rest : List Condition) (groups : List String)
      (subs : List Subscription) (warns : List WafLog),
      (c.inputs.map (fun i => Reporter.splitHead i.address ':')).all
        (fun a => valid.contains a) = false →
      processConditions valid rid (c :: rest) groups subs warns =
        (groups, subs, warns ++ [WafLog.skipRule rid]) := by
    intro valid rid c rest groups subs warns h
    simp only [processConditions]
    split
    next => rfl
    next hcon =>
      rw [h] at hcon
      simp at hcon
  refine ⟨hbreak, ?_, ?_⟩
  · intro valid acc r c rest hcond h
    unfold loadRule
    rw [hcond, hbreak valid r.id c rest acc.groups acc.subs acc.warns h]
    exact ⟨rfl, rfl, rfl⟩
  · intro valid rules more
    simp [loadRules, List.foldl_append]

/-- C7 witness: the amended theorem applied to concrete data — the break
at an invalid condition, a rule with an invalid first condition adding
zero subscriptions, and the rule loop continuing over appended rules. -/
theorem C7_invalid_condition_breaks_witness :
    processConditions ["addr.a"] "r2" [⟨[⟨"bad.addr"⟩]⟩] [] [] [] =
      ([], [], [WafLog.skipRule "r2"]) ∧
    ((loadRule ["addr.a"] ⟨[], [], [], []⟩ ruleBadFirst).subs = [] ∧
      (loadRule ["addr.a"] ⟨[], [], [], []⟩ ruleBadFirst).groups = [] ∧
      (loadRule ["addr.a"] ⟨[], [], [], []⟩ ruleBadFirst).warns =
        [] ++ [WafLog.skipRule "r2"]) ∧
    loadRules ["addr.a"] ([ruleBadFirst] ++ [ruleMixed]) =
      [ruleMixed].foldl (loadRule ["addr.a"])
        (loadRules ["addr.a"] [ruleBadFirst]) :=
  ⟨C7_invalid_condition_breaks.1 ["addr.a"] "r2" ⟨[⟨"bad.addr"⟩]⟩ [] [] [] []
      (by decide),
    C7_invalid_condition_breaks.2.1 ["addr.a"] ⟨[], [], [], []⟩ ruleBadFirst
      ⟨[⟨"bad.addr"⟩]⟩ [] rfl (by decide),
    C7_invalid_condition_breaks.2.2 ["addr.a"] [ruleBadFirst] [ruleMixed]⟩

/-- C8: within one constructed adapter instance no two registered Gateway
subscriptions share an address set — the registered fingerprints are
pairwise distinct, the subscription list is duplicate-free, every
subscription's address list is the canonical (sorted, deduplicated) form,
and two subscriptions whose address lists are permutations of each other
(the same address set) are the same subscription. -/
theorem C8_subscription_fingerprints (valid : List String) (rs : RuleSet) :
    ((wafConstructor valid rs).subscriptions.map hashOf).Nodup ∧
    (wafConstructor valid rs).subscriptions.Nodup ∧
    (∀ sub ∈ (wafConstructor valid rs).subscriptions,
      List.Sorted strle sub.addresses ∧ sub.addresses.Nodup) ∧
    (∀ s₁ ∈ (wafConstructor valid rs).subscriptions,
      ∀ s₂ ∈ (wafConstructor valid rs).subscriptions,
      s₁.addresses.Perm s₂.addresses → s₁ = s₂) := by
  obtain ⟨h1, h2, h3⟩ := loadRules_inv valid rs.rules
  have hs : (wafConstructor valid rs).subscriptions =
      (loadRules valid rs.rules).subs := rfl
  rw [hs]
  refine ⟨h1, List.Nodup.of_map hashOf h1, h3, ?_⟩
  intro s₁ hs₁ s₂ hs₂ hperm
  obtain ⟨hsort₁, -⟩ := h3 s₁ hs₁
  obtain ⟨hsort₂, -⟩ := h3 s₂ hs₂
  have heq := List.eq_of_perm_of_sorted hperm hsort₁ hsort₂
  cases s₁
  cases s₂
  simpa using heq

/-- C8 witness: the theorem applied to `rsW`, whose two conditions share
the fingerprint "a,b" — only the first registers, leaving one canonical
subscription. -/
theorem C8_subscription_fingerprints_witness :
    ((wafConstructor ["a", "b"] rsW).subscriptions.map hashOf).Nodup ∧
    (wafConstructor ["a", "b"] rsW).subscriptions.Nodup ∧
    (List.Sorted strle (⟨["a", "b"]⟩ : Subscription).addresses ∧
      (⟨["a", "b"]⟩ : Subscription).addresses.Nodup) ∧
    (⟨["a", "b"]⟩ : Subscription) = ⟨["a", "b"]⟩ ∧
    (wafConstructor ["a", "b"] rsW).subscriptions = [⟨["a", "b"]⟩] := by
  have h := C8_subscription_fingerprints ["a", "b"] rsW
  have hmem : (⟨["a", "b"]⟩ : Subscription) ∈
      (wafConstructor ["a", "b"] rsW).subscriptions := by decide
  exact ⟨h.1, h.2.1, h.2.2.1 _ hmem,
    h.2.2.2 _ hmem _ hmem (List.Perm.refl _), by decide⟩

/-- C9: when the matcher run raises, the error is caught at the adapter
boundary — `action` (a total function, so nothing propagates to the
publisher) logs a warning, produces no attack reports, and leaves the
subscriptions and rule cache untouched. -/
theorem C9_matcher_error_contained :
    ∀ (self : WAFCallback) (store : Option Store)
      (run : Nat → Except Unit WafResult),
      (∀ c, run c = .error ()) →
      (action self store run).2 = [] ∧
      WafLog.runError ∈ (action self store run).1.logWarnings ∧
      (action self store run).1.subscriptions = self.subscriptions ∧
      (action self store run).1.ruleCache = self.ruleCache := by
  intro self store run h
  obtain _ | ⟨ck⟩ := store
  · simp [action, h]
  · obtain ⟨ck⟩ := ck
    obtain _ | ⟨key⟩ := ck
    · simp [action, h]
    · rcases hf : (self.wafContextCache.find? (fun kv => kv.1 == key)).map
        (fun kv => kv.2) with _ | c
      · simp [action, hf, h]
      · simp [action, hf, h]

/-- C9 witness: the theorem applied to a freshly constructed instance with
no store and an always-raising matcher. -/
theorem C9_matcher_error_contained_witness :
    (action (wafConstructor ["a"] ⟨[]⟩) none (fun _ => .error ())).2 = [] ∧
    WafLog.runError ∈ (action (wafConstructor ["a"] ⟨[]⟩) none
      (fun _ => .error ())).1.logWarnings ∧
    (action (wafConstructor ["a"] ⟨[]⟩) none
      (fun _ => .error ())).1.subscriptions =
      (wafConstructor ["a"] ⟨[]⟩).subscriptions ∧
    (action (wafConstructor ["a"] ⟨[]⟩) none
      (fun _ => .error ())).1.ruleCache =
      (wafConstructor ["a"] ⟨[]⟩).ruleCache :=
  C9_matcher_error_contained (wafConstructor ["a"] ⟨[]⟩) none
    (fun _ => .error ()) (fun _ => rfl)

end WAF

end AppSec
